import Mathlib

/-!
Verification development for the smell-ai web dashboard (TypeScript sources)
and the analysis-core contract it consumes.

The definitions below are shallow embeddings of the TypeScript functions in
`src/webapp` and the unnamed dashboard modules: JavaScript truthiness on
strings is modelled by `Option String` together with emptiness tests,
JavaScript numbers used as line counters by `Int`, and fallible asynchronous
calls by `Except`.
-/

namespace SmellAi

/-- The `ContextSmell` record type of `webapp/types/types.ts`: one detection,
with the file-identity field named `file_name` in the declared field order
`function_name, file_name, line, smell_name, description, additional_info`. -/
structure ContextSmell where
  function_name : String
  file_name : String
  line : Int
  smell_name : String
  description : String
  additional_info : String
deriving DecidableEq, Repr

/-- A JSON-ish scalar as it appears in serialized rows and objects. -/
inductive JScalar where
  | str (s : String)
  | num (n : Int)
deriving DecidableEq, Repr

/-- The object shape of a `ContextSmell` when serialized: the association
list of (key, value) pairs in the field order declared in `types.ts`. -/
def contextSmellFields (s : ContextSmell) : List (String × JScalar) :=
  [("function_name", .str s.function_name),
   ("file_name",     .str s.file_name),
   ("line",          .num s.line),
   ("smell_name",    .str s.smell_name),
   ("description",   .str s.description),
   ("additional_info", .str s.additional_info)]

/-- A browser `File` as the sidebar sees it: only the name matters to the
logic under study. -/
structure FileRec where
  name : String
deriving DecidableEq, Repr

/-- The filter applied by `handleFileInputChange` in
`webapp/components/ProjectSidebar.tsx`:
`files.filter((file) => file.name.endsWith(".py") && file.name !== "__init__.py")`. -/
def filteredFiles (files : List FileRec) : List FileRec :=
  files.filter (fun file => file.name.endsWith ".py" && file.name != "__init__.py")

/-- A raw smell record as `formatSmells` in the dashboard data-formatter
module receives it: every field may be absent (undefined/null), mirroring the
defensive reads `smell.function_name || "N/A"` etc. -/
structure RawSmell where
  function_name : Option String
  file_name : Option String
  line : Option Int
  smell_name : Option String
  description : Option String
  additional_info : Option String
deriving DecidableEq, Repr

/-- A runtime element of the smells array as `formatSmells` defends against:
a proper record, a stray string (filtered by the typeof test), or a null
entry (guarded by the optional-chaining access). -/
inductive JSmell where
  | obj (r : RawSmell)
  | str (s : String)
  | nullv
deriving DecidableEq, Repr

/-- JavaScript truthiness of an optional string: absent and empty are falsy. -/
def strTruthy : Option String → Bool
  | some s => s != ""
  | none => false

/-- The JavaScript idiom `o || d` on an optional string field. -/
def strOrElse (o : Option String) (d : String) : String :=
  match o with
  | some s => if s = "" then d else s
  | none => d

/-- The JavaScript idiom `smell.line || -1` on the numeric line field:
absent and zero are falsy and default to -1. -/
def lineOrElse (o : Option Int) : Int :=
  match o with
  | some n => if n = 0 then -1 else n
  | none => -1

/-- The per-record mapping step of `formatSmells` in the data-formatter
module: defaults every field but keeps `smell_name` as found. -/
def formatOne (r : RawSmell) : RawSmell :=
  { smell_name := r.smell_name
    file_name := some (strOrElse r.file_name "N/A")
    description := some (strOrElse r.description "No description provided")
    function_name := some (strOrElse r.function_name "N/A")
    line := some (lineOrElse r.line)
    additional_info := some (strOrElse r.additional_info "N/A") }

/-- The filter predicate of `formatSmells`:
`typeof smell !== "string" && smell?.smell_name`. -/
def keepSmell : JSmell → Bool
  | .obj r => strTruthy r.smell_name
  | _ => false

/-- The map step of `formatSmells` applied to a kept element. -/
def formatEntry : JSmell → JSmell
  | .obj r => .obj (formatOne r)
  | v => v

/-- The filter-then-map body of `formatSmells` on a present array. -/
def formatList (l : List JSmell) : List JSmell :=
  (l.filter keepSmell).map formatEntry

/-- The function `formatSmells` of the dashboard data-formatter module:
returns the empty list on a missing array, otherwise filters out entries
without a truthy `smell_name` and defaults the remaining fields. -/
def formatSmells (smells : Option (List JSmell)) : List JSmell :=
  match smells with
  | none => []
  | some l => formatList l

/-- The `data` sub-record of `ProjectType` in `webapp/types/types.ts`. -/
structure ProjectData where
  files : Option (List String)
  message : String
  result : Option String
  smells : Option (List ContextSmell)
deriving DecidableEq, Repr

/-- The `ProjectType` record of `webapp/types/types.ts`. -/
structure ProjectType where
  name : String
  files : Option (List FileRec)
  data : ProjectData
  isLoading : Bool
deriving DecidableEq, Repr

/-- The file count resolved by `calculateSmellDensity`:
`Array.isArray(project.data.files) ? project.data.files.length
 : (project.files?.length || 1)` — note the `|| 1` fallback maps both a
missing and an empty top-level file list to 1. -/
def resolvedFileCount (q : ProjectType) : ℚ :=
  match q.data.files with
  | some fl => fl.length
  | none =>
    match q.files with
    | some fl => if fl.length = 0 then 1 else (fl.length : ℚ)
    | none => 1

/-- The function `calculateSmellDensity` of the dashboard data-formatter
module, with JavaScript numbers modelled as rationals and `Math.round` as
round-half-up rounding to an integer. -/
def calculateSmellDensity (project : Option ProjectType) : ℚ :=
  match project with
  | none => 0
  | some q =>
    match q.data.smells with
    | none => 0
    | some smells =>
      if q.data.files = none ∧ q.files = none then 0
      else if resolvedFileCount q = 0 then 0
      else ((round ((smells.length : ℚ) / resolvedFileCount q * 10) : ℤ) : ℚ) / 10

/-- One table row built by `handleDownloadPDF` in
`webapp/components/PDFDownloadButton.tsx`:
`[smell.smell_name, smell.function_name, smell.file_name, smell.line,
smell.description]`. -/
def smellRow (s : ContextSmell) : List JScalar :=
  [.str s.smell_name, .str s.function_name, .str s.file_name,
   .num s.line, .str s.description]

/-- The observable outcome of `handleDownloadPDF`: the table body handed to
autoTable (if any), whether the no-smells text was printed instead, and
whether the handler reported success. -/
structure PdfReport where
  table : Option (List (List JScalar))
  noSmellsText : Bool
  success : Bool
deriving DecidableEq, Repr

/-- The document-building logic of `handleDownloadPDF` in
`webapp/components/PDFDownloadButton.tsx`: with a non-empty smell list the
table body is `tableData.slice(0, 15)`; otherwise the no-smells text is
printed; both paths save the document and report success. -/
def handleDownloadPDF (smells : Option (List ContextSmell)) : PdfReport :=
  match smells with
  | some l =>
    if 0 < l.length then
      { table := some ((l.map smellRow).take 15), noSmellsText := false,
        success := true }
    else
      { table := none, noSmellsText := true, success := true }
  | none => { table := none, noSmellsText := true, success := true }

/-- The `DetectResponse` shape of `webapp/types/types.ts` as the sidebar
defends against it at runtime: both fields may be absent (the per-file catch
handler returns an object holding only an empty `smells` array, and the
merge step reads `result.smells || []`). -/
structure DetectResponse where
  success : Option Bool
  smells : Option (List ContextSmell)
deriving DecidableEq, Repr

/-- The per-file try/catch of `analyzeProject` in
`webapp/components/ProjectSidebar.tsx`: a rejected `detectStatic` call is
caught and replaced by `{ smells: [] }`. -/
def recoverResult (x : Except String DetectResponse) : DetectResponse :=
  match x with
  | .ok r => r
  | .error _ => { success := none, smells := some [] }

/-- The `results` array of `analyzeProject`: `Promise.all` over the snippet
array maps the guarded per-file analysis in input order. -/
def analyzeResults (detect : FileRec → Except String DetectResponse)
    (files : List FileRec) : List DetectResponse :=
  files.map (fun f => recoverResult (detect f))

/-- The merged smell list of `analyzeProject`:
`results.flatMap(result => result.smells || [])`. -/
def mergedSmells (detect : FileRec → Except String DetectResponse)
    (files : List FileRec) : List ContextSmell :=
  (analyzeResults detect files).flatMap (fun r => r.smells.getD [])

/-- One smell entry of `generateResultString` in `ProjectSidebar.tsx`: each
truthy field appends one line, then the entry is trimmed. -/
def smellEntryString (s : ContextSmell) : String :=
  ((if s.function_name ≠ "" then "Function: " ++ s.function_name ++ "\n" else "") ++
   (if s.file_name ≠ "" then "File: " ++ s.file_name ++ "\n" else "") ++
   (if s.line ≠ 0 then "Line: " ++ toString s.line ++ "\n" else "") ++
   (if s.smell_name ≠ "" then "Smell: " ++ s.smell_name ++ "\n" else "") ++
   (if s.description ≠ "" then "Description: " ++ s.description ++ "\n" else "") ++
   (if s.additional_info ≠ "" then "Additional Info: " ++ s.additional_info ++ "\n" else "")).trim

/-- The function `generateResultString` of `ProjectSidebar.tsx`: one block
per file in input order, joined with blank lines. -/
def generateResultString (results : List DetectResponse)
    (files : List FileRec) : String :=
  String.intercalate "\n\n"
    (List.zipWith
      (fun res file =>
        "File: " ++ file.name ++ "\n" ++
        String.intercalate "\n\n" ((res.smells.getD []).map smellEntryString))
      results files)

/-- The project-data update computed by `analyzeProject` in
`ProjectSidebar.tsx`: the empty-file-list branch reports no valid files and
an empty smell list; otherwise the per-file results are merged in input
order. -/
def analyzeProject (detect : FileRec → Except String DetectResponse)
    (files : List FileRec) : ProjectData :=
  if files.length = 0 then
    { files := none, message := "No valid files found for analysis.",
      result := none, smells := some [] }
  else
    { files := some (files.map (fun f => f.name)),
      message := "Project successfully analyzed!",
      result := some (generateResultString (analyzeResults detect files) files),
      smells := some (mergedSmells detect files) }

/-- The settled per-file tasks in an arbitrary completion order: each task
carries the input position it was launched for together with its (recovered)
result, as `Promise.all` records settled values by originating index. -/
def taskCompletions (detect : FileRec → Except String DetectResponse)
    (files : List FileRec) (order : List Nat) : List (Nat × DetectResponse) :=
  order.map (fun i => (i, recoverResult (detect (files.getD i ⟨""⟩))))

/-- Gathering the settled values into the result array indexed by input
position, as `Promise.all` resolves. -/
def gatherResults (n : Nat) (completions : List (Nat × DetectResponse)) :
    List DetectResponse :=
  (List.range n).map (fun i =>
    (completions.lookup i).getD { success := none, smells := some [] })

/-- The result array produced under an explicit completion order. -/
def scheduledResults (detect : FileRec → Except String DetectResponse)
    (files : List FileRec) (order : List Nat) : List DetectResponse :=
  gatherResults files.length (taskCompletions detect files order)

/-- The merged smell list produced under an explicit completion order. -/
def scheduledMergedSmells (detect : FileRec → Except String DetectResponse)
    (files : List FileRec) (order : List Nat) : List ContextSmell :=
  (scheduledResults detect files order).flatMap (fun r => r.smells.getD [])

/-- Modelled from the spec: the serialized `AnalysisResult` of the analysis
core (sections 4.5 and 6 of the specification). The core itself is not among
the web sources; only its JSON output contract is, so the groupings are
association lists keyed by considered file name and by observed smell
name. -/
structure AnalysisResult where
  total_smells : Nat
  smells_by_file : List (String × Nat)
  smells_by_type : List (String × Nat)
  detections : List ContextSmell
deriving DecidableEq, Repr

/-- Modelled from the spec: a grouping count table over a fixed key list. -/
def countsFor (keys : List String) (vals : List String) :
    List (String × Nat) :=
  keys.map (fun k => (k, vals.count k))

/-- Modelled from the spec: the Aggregator — total = count of all
detections, by-file counts over every considered file, by-type counts over
observed smell names only, detections kept in order. -/
def aggregate (files : List String) (dets : List ContextSmell) :
    AnalysisResult :=
  { total_smells := dets.length
    smells_by_file := countsFor files.dedup (dets.map (fun d => d.file_name))
    smells_by_type := countsFor (dets.map (fun d => d.smell_name)).dedup
                        (dets.map (fun d => d.smell_name))
    detections := dets }

/-- Sum of the per-group counts of a grouping table. -/
def sumCounts (m : List (String × Nat)) : Nat := (m.map Prod.snd).sum

/-- The `StackedDataItem` record of `webapp/types/types.ts`. -/
structure StackedDataItem where
  filename : String
  smell_name : String
  count : Int
deriving DecidableEq, Repr

/-- Inner step of the stacked-chart grouping reduce in the reports page:
`acc[file][smell] = (acc[file][smell] || 0) + count`, on the association
list for one file (a new smell key is appended last, as JavaScript object
insertion order does). -/
def bumpSmell (s : String) (c : Int) :
    List (String × Int) → List (String × Int)
  | [] => [(s, c)]
  | (k, v) :: rest =>
    if k = s then (k, v + c) :: rest else (k, v) :: bumpSmell s c rest

/-- Outer step of the grouping reduce: `if (!acc[file]) acc[file] = {}`
then the inner update. -/
def bumpFile (f s : String) (c : Int) :
    List (String × List (String × Int)) →
      List (String × List (String × Int))
  | [] => [(f, bumpSmell s c [])]
  | (k, inner) :: rest =>
    if k = f then (k, bumpSmell s c inner) :: rest
    else (k, inner) :: bumpFile f s c rest

/-- The grouping reduce over the stacked-chart data in the reports page:
group by filename, then by smell name, summing counts. -/
def groupStacked (data : List StackedDataItem) :
    List (String × List (String × Int)) :=
  data.foldl
    (fun acc item => bumpFile item.filename item.smell_name item.count acc) []

/-- Sum of the counts recorded for one file. -/
def sumSmells (inner : List (String × Int)) : Int :=
  (inner.map Prod.snd).sum

/-- Sum of all counts in the grouped table. -/
def sumGrouped (g : List (String × List (String × Int))) : Int :=
  (g.map (fun p => sumSmells p.snd)).sum

/-- A concrete detection used by concrete instantiations below. -/
def sampleSmell : ContextSmell :=
  ⟨"train", "a.py", 12, "Chain Indexing", "chained indexing", "none"⟩

/-- A concrete two-file upload used by concrete instantiations below. -/
def demoFiles : List FileRec := [⟨"a.py"⟩, ⟨"b.py"⟩]

/-- A concrete analysis back end: one smell in a.py, none elsewhere. -/
def demoDetect (f : FileRec) : Except String DetectResponse :=
  if f.name = "a.py" then .ok ⟨some true, some [sampleSmell]⟩
  else .ok ⟨some true, some []⟩

/-- A concrete analysis back end that faults on a.py. -/
def errDetect (f : FileRec) : Except String DetectResponse :=
  if f.name = "a.py" then .error "boom"
  else .ok ⟨some true, some [sampleSmell]⟩

/-- A concrete project with three smells over two files. -/
def sampleDensityProject : ProjectType :=
  ⟨"P", none,
   ⟨some ["a.py", "b.py"], "ok", none, some [sampleSmell, sampleSmell, sampleSmell]⟩,
   false⟩

end SmellAi

open SmellAi

/-- C2: every file passed on to analysis ends with ".py" and is not the
package initializer "__init__.py"; in particular "__init__.py" never appears
among the analyzed file names, nor among the per-file names the analysis
publishes in the project data. -/
theorem claim_C2_filter_excludes_init
    (files : List FileRec) :
    (∀ f ∈ filteredFiles files,
        f.name.endsWith ".py" = true ∧ f.name ≠ "__init__.py") ∧
    "__init__.py" ∉ (filteredFiles files).map (fun f => f.name) ∧
    (∀ detect : FileRec → Except String DetectResponse,
      "__init__.py" ∉
        ((analyzeProject detect (filteredFiles files)).files.getD [])) := by
  have hkeep : ∀ f ∈ filteredFiles files,
      f.name.endsWith ".py" = true ∧ f.name ≠ "__init__.py" := by
    intro f hf
    have h := List.of_mem_filter hf
    simp only [Bool.and_eq_true, bne_iff_ne, ne_eq] at h
    exact ⟨h.1, h.2⟩
  have hnot : "__init__.py" ∉ (filteredFiles files).map (fun f => f.name) := by
    intro hmem
    rcases List.mem_map.mp hmem with ⟨f, hf, hname⟩
    exact (hkeep f hf).2 hname
  refine ⟨hkeep, hnot, ?_⟩
  intro detect
  by_cases h : (filteredFiles files).length = 0
  · simp [analyzeProject, h]
  · simpa [analyzeProject, h] using hnot

/-- Witness for C2 at a concrete upload list. -/
theorem claim_C2_filter_excludes_init_witness :
    (∀ f ∈ filteredFiles [⟨"a.py"⟩, ⟨"__init__.py"⟩, ⟨"b.txt"⟩],
        f.name.endsWith ".py" = true ∧ f.name ≠ "__init__.py") ∧
    "__init__.py" ∉
      (filteredFiles [⟨"a.py"⟩, ⟨"__init__.py"⟩, ⟨"b.txt"⟩]).map
        (fun f => f.name) ∧
    (∀ detect : FileRec → Except String DetectResponse,
      "__init__.py" ∉
        ((analyzeProject detect
          (filteredFiles [⟨"a.py"⟩, ⟨"__init__.py"⟩, ⟨"b.txt"⟩])).files.getD [])) :=
  claim_C2_filter_excludes_init [⟨"a.py"⟩, ⟨"__init__.py"⟩, ⟨"b.txt"⟩]

theorem strOrElse_ne_empty (o : Option String) (d : String) (hd : d ≠ "") :
    strOrElse o d ≠ "" := by
  cases o with
  | none => simpa [strOrElse] using hd
  | some s => by_cases h : s = "" <;> simp [strOrElse, h, hd]

theorem strOrElse_some_self (x d : String) (hx : x ≠ "") :
    strOrElse (some x) d = x := by
  simp [strOrElse, hx]

theorem lineOrElse_ne_zero (o : Option Int) : lineOrElse o ≠ 0 := by
  cases o with
  | none => simp [lineOrElse]
  | some n => by_cases h : n = 0 <;> simp [lineOrElse, h]

theorem lineOrElse_some_self (n : Int) (hn : n ≠ 0) : lineOrElse (some n) = n := by
  simp [lineOrElse, hn]

theorem formatOne_idem (r : RawSmell) : formatOne (formatOne r) = formatOne r := by
  have h1 := strOrElse_ne_empty r.file_name "N/A" (by decide)
  have h2 := strOrElse_ne_empty r.description "No description provided" (by decide)
  have h3 := strOrElse_ne_empty r.function_name "N/A" (by decide)
  have h4 := strOrElse_ne_empty r.additional_info "N/A" (by decide)
  have h5 := lineOrElse_ne_zero r.line
  simp [formatOne, strOrElse_some_self _ _ h1, strOrElse_some_self _ _ h2,
        strOrElse_some_self _ _ h3, strOrElse_some_self _ _ h4,
        lineOrElse_some_self _ h5]

theorem formatList_cons (v : JSmell) (l : List JSmell) :
    formatList (v :: l) =
      if keepSmell v then formatEntry v :: formatList l else formatList l := by
  by_cases h : keepSmell v <;> simp [formatList, List.filter_cons, h]

theorem keepSmell_formatEntry (v : JSmell) (h : keepSmell v = true) :
    keepSmell (formatEntry v) = true := by
  cases v with
  | obj r => simpa [keepSmell, formatEntry, formatOne] using h
  | str s => simp [keepSmell] at h
  | nullv => simp [keepSmell] at h

theorem formatEntry_idem (v : JSmell) :
    formatEntry (formatEntry v) = formatEntry v := by
  cases v with
  | obj r => simp [formatEntry, formatOne_idem]
  | str s => rfl
  | nullv => rfl

theorem formatList_idem (l : List JSmell) :
    formatList (formatList l) = formatList l := by
  induction l with
  | nil => rfl
  | cons v rest ih =>
    by_cases h : keepSmell v = true
    · rw [formatList_cons, if_pos h, formatList_cons,
        if_pos (keepSmell_formatEntry v h), formatEntry_idem, ih]
    · rw [formatList_cons, if_neg h, ih]

/-- C5: every formatted record comes from an input record with a truthy
smell name via the defaulting map; the map preserves a present function name
and substitutes "N/A" for a missing one, preserves a localizable (positive)
line and substitutes -1 for a missing or non-localizable one, and a record
lacking a smell name is dropped from the output rather than defaulted. -/
theorem claim_C5_formatSmells_fields (l : List JSmell) :
    (∀ v ∈ formatSmells (some l), ∃ r : RawSmell,
        JSmell.obj r ∈ l ∧ strTruthy r.smell_name = true ∧
        v = .obj (formatOne r)) ∧
    (∀ r : RawSmell,
      (∀ s : String, r.function_name = some s → s ≠ "" →
          (formatOne r).function_name = some s) ∧
      ((r.function_name = none ∨ r.function_name = some "") →
          (formatOne r).function_name = some "N/A") ∧
      (∀ n : Int, r.line = some n → 1 ≤ n → (formatOne r).line = some n) ∧
      ((r.line = none ∨ r.line = some 0 ∨ r.line = some (-1)) →
          (formatOne r).line = some (-1))) ∧
    (∀ r : RawSmell, strTruthy r.smell_name = false → ∀ rest : List JSmell,
        formatSmells (some (JSmell.obj r :: rest)) = formatSmells (some rest)) := by
  refine ⟨?_, ?_, ?_⟩
  · intro v hv
    rcases List.mem_map.mp hv with ⟨u, hu, rfl⟩
    have hk := List.of_mem_filter hu
    have hm := List.mem_of_mem_filter hu
    cases u with
    | obj r => exact ⟨r, hm, by simpa [keepSmell] using hk, rfl⟩
    | str s => simp [keepSmell] at hk
    | nullv => simp [keepSmell] at hk
  · intro r
    refine ⟨?_, ?_, ?_, ?_⟩
    · intro s hs hne
      simp [formatOne, hs, strOrElse_some_self _ _ hne]
    · rintro (h | h) <;> simp [formatOne, h, strOrElse]
    · intro n hn hpos
      have hnz : n ≠ 0 := by omega
      simp [formatOne, hn, lineOrElse_some_self _ hnz]
    · rintro (h | h | h) <;> simp [formatOne, h, lineOrElse]
  · intro r hr rest
    simp [formatSmells, formatList_cons, keepSmell, hr]

/-- Witness for C5: a present function name and line survive formatting, a
missing function name becomes "N/A", a missing line becomes -1, and a record
without a smell name is dropped. -/
theorem claim_C5_formatSmells_fields_witness :
    (formatOne ⟨some "train", some "a.py", some 12, some "Chain Indexing",
        some "d", some "i"⟩).function_name = some "train" ∧
    (formatOne ⟨none, some "a.py", none, some "Chain Indexing",
        some "d", some "i"⟩).function_name = some "N/A" ∧
    (formatOne ⟨some "train", some "a.py", some 12, some "Chain Indexing",
        some "d", some "i"⟩).line = some 12 ∧
    (formatOne ⟨none, some "a.py", none, some "Chain Indexing",
        some "d", some "i"⟩).line = some (-1) ∧
    formatSmells (some [JSmell.obj ⟨some "train", some "a.py", some 12, none,
        some "d", some "i"⟩]) = formatSmells (some []) :=
  ⟨((claim_C5_formatSmells_fields []).2.1 _).1 "train" rfl (by decide),
   ((claim_C5_formatSmells_fields []).2.1 _).2.1 (Or.inl rfl),
   ((claim_C5_formatSmells_fields []).2.1 _).2.2.1 12 rfl (by decide),
   ((claim_C5_formatSmells_fields []).2.1 _).2.2.2 (Or.inl rfl),
   (claim_C5_formatSmells_fields []).2.2 _ (by decide) []⟩

/-- C9: formatSmells is idempotent — applying it to its own output returns
that output unchanged. -/
theorem claim_C9_formatSmells_idempotent (x : Option (List JSmell)) :
    formatSmells (some (formatSmells x)) = formatSmells x := by
  cases x with
  | none => rfl
  | some l => exact formatList_idem l

theorem round_nonneg_of_nonneg (x : ℚ) (hx : 0 ≤ x) : (0 : ℤ) ≤ round x := by
  rw [round_eq]
  exact Int.floor_nonneg.mpr (by linarith)

theorem resolvedFileCount_nonneg (q : ProjectType) : 0 ≤ resolvedFileCount q := by
  unfold resolvedFileCount
  cases q.data.files with
  | some fl => exact_mod_cast Nat.cast_nonneg fl.length
  | none =>
    cases q.files with
    | some fl =>
      by_cases h : fl.length = 0
      · simp [h]
      · simp only [if_neg h]
        exact_mod_cast Nat.cast_nonneg fl.length
    | none => norm_num

/-- C10: calculateSmellDensity returns 0 whenever the smell list is absent,
both file lists are absent, or the resolved file count is 0 (so the division
is never reached with a zero divisor); in every other case it returns the
smell count divided by the file count, rounded to one decimal place; and the
result is non-negative for every input. -/
theorem claim_C10_density_safe (p : Option ProjectType) :
    0 ≤ calculateSmellDensity p ∧
    (∀ q : ProjectType, p = some q →
      ((q.data.smells = none ∨ (q.data.files = none ∧ q.files = none) ∨
          resolvedFileCount q = 0) → calculateSmellDensity p = 0) ∧
      (∀ smells : List ContextSmell, q.data.smells = some smells →
          ¬(q.data.files = none ∧ q.files = none) →
          resolvedFileCount q ≠ 0 →
          calculateSmellDensity p =
            ((round ((smells.length : ℚ) / resolvedFileCount q * 10) : ℤ) : ℚ)
              / 10)) := by
  constructor
  · cases p with
    | none => simp [calculateSmellDensity]
    | some q =>
      cases hs : q.data.smells with
      | none => simp [calculateSmellDensity, hs]
      | some smells =>
        by_cases hg : q.data.files = none ∧ q.files = none
        · simp [calculateSmellDensity, hs, hg]
        · by_cases hf : resolvedFileCount q = 0
          · simp [calculateSmellDensity, hs, hg, hf]
          · have hval : calculateSmellDensity (some q) =
                ((round ((smells.length : ℚ) / resolvedFileCount q * 10) : ℤ) : ℚ)
                  / 10 := by
              simp [calculateSmellDensity, hs, hg, hf]
            rw [hval]
            have hx : (0 : ℚ) ≤ (smells.length : ℚ) / resolvedFileCount q * 10 := by
              have h1 : (0 : ℚ) ≤ (smells.length : ℚ) := by positivity
              have h2 := resolvedFileCount_nonneg q
              have := div_nonneg h1 h2
              linarith
            have hr := round_nonneg_of_nonneg _ hx
            have : (0 : ℚ) ≤ ((round ((smells.length : ℚ) / resolvedFileCount q * 10) : ℤ) : ℚ) := by
              exact_mod_cast hr
            linarith
  · rintro q rfl
    constructor
    · rintro (hs | hg | hf)
      · simp [calculateSmellDensity, hs]
      · cases hs : q.data.smells with
        | none => simp [calculateSmellDensity, hs]
        | some smells => simp [calculateSmellDensity, hs, hg]
      · cases hs : q.data.smells with
        | none => simp [calculateSmellDensity, hs]
        | some smells =>
          by_cases hg : q.data.files = none ∧ q.files = none
          · simp [calculateSmellDensity, hs, hg]
          · simp [calculateSmellDensity, hs, hg, hf]
    · intro smells hs hg hf
      simp [calculateSmellDensity, hs, hg, hf]

/-- Witness for C10 at a concrete project: three smells over two files give
density 3/2 (15 tenths). -/
theorem claim_C10_density_safe_witness :
    resolvedFileCount sampleDensityProject ≠ 0 ∧
    calculateSmellDensity (some sampleDensityProject) =
      ((round (((([sampleSmell, sampleSmell, sampleSmell] : List ContextSmell).length : ℚ))
          / resolvedFileCount sampleDensityProject * 10) : ℤ) : ℚ) / 10 := by
  have hnz : resolvedFileCount sampleDensityProject ≠ 0 := by decide
  exact ⟨hnz,
    ((claim_C10_density_safe (some sampleDensityProject)).2 sampleDensityProject rfl).2
      [sampleSmell, sampleSmell, sampleSmell] rfl (by decide) hnz⟩

/-- C6 counterexample: the serialized detection object of a concrete smell
has no key named "filename" — the file identity field of `ContextSmell` in
`webapp/types/types.ts` is named "file_name", so the claim as stated fails. -/
theorem claim_C6_counterexample_no_filename_key :
    "filename" ∉ (contextSmellFields sampleSmell).map Prod.fst := by
  decide

/-- C6 amended: every serialized detection object carries exactly the keys
function_name, file_name, line, smell_name, description, additional_info (in
that declared order); the file identity field is named "file_name", and no
key "filename" is present. -/
theorem claim_C6_detection_fields (s : ContextSmell) :
    (contextSmellFields s).map Prod.fst =
      ["function_name", "file_name", "line", "smell_name", "description",
       "additional_info"] ∧
    "file_name" ∈ (contextSmellFields s).map Prod.fst ∧
    "filename" ∉ (contextSmellFields s).map Prod.fst := by
  refine ⟨rfl, ?_, ?_⟩ <;> simp [contextSmellFields]

/-- C8: when a project has more than 15 smells, the PDF table body is
exactly the rows of the first 15 smells in list order (15 rows; the rest are
silently omitted) and the handler still reports success. -/
theorem claim_C8_pdf_truncates_to_15 (smells : List ContextSmell)
    (h : 15 < smells.length) :
    (handleDownloadPDF (some smells)).table =
      some ((smells.take 15).map smellRow) ∧
    ((smells.take 15).map smellRow).length = 15 ∧
    (handleDownloadPDF (some smells)).success = true := by
  have hpos : 0 < smells.length := by omega
  refine ⟨?_, ?_, ?_⟩
  · simp [handleDownloadPDF, hpos, List.map_take]
  · simp only [List.length_map, List.length_take]
    omega
  · simp [handleDownloadPDF, hpos]

/-- Witness for C8 at a concrete 16-smell list. -/
theorem claim_C8_pdf_truncates_to_15_witness :
    15 < (List.replicate 16 sampleSmell).length ∧
    ((handleDownloadPDF (some (List.replicate 16 sampleSmell))).table =
        some (((List.replicate 16 sampleSmell).take 15).map smellRow) ∧
      (((List.replicate 16 sampleSmell).take 15).map smellRow).length = 15 ∧
      (handleDownloadPDF (some (List.replicate 16 sampleSmell))).success = true) :=
  ⟨by simp, claim_C8_pdf_truncates_to_15 _ (by simp)⟩

theorem sum_map_add_split (keys : List String) (x y : String → Nat) :
    (keys.map fun k => x k + y k).sum = (keys.map x).sum + (keys.map y).sum := by
  induction keys with
  | nil => rfl
  | cons b ks ih =>
    simp only [List.map_cons, List.sum_cons, ih]
    omega

theorem sum_indicator_eq_count (a : String) (keys : List String) :
    (keys.map fun k => if a == k then 1 else 0).sum = keys.count a := by
  induction keys with
  | nil => rfl
  | cons b ks ih =>
    by_cases h : a = b
    · subst h
      simp only [List.map_cons, List.sum_cons, ih, List.count_cons,
        beq_self_eq_true, if_true]
      omega
    · have hba : ¬(b = a) := fun hh => h hh.symm
      simp only [List.map_cons, List.sum_cons, List.count_cons, beq_iff_eq]
        at ih ⊢
      simp [ih, h, hba]

theorem sumCounts_countsFor (keys vals : List String) :
    sumCounts (countsFor keys vals) = (keys.map fun k => vals.count k).sum := by
  simp [sumCounts, countsFor, List.map_map, Function.comp_def]

theorem sum_counts_cover (keys vals : List String) (hnd : keys.Nodup)
    (hcov : ∀ v ∈ vals, v ∈ keys) :
    (keys.map fun k => vals.count k).sum = vals.length := by
  induction vals with
  | nil => simp
  | cons a l ih =>
    have hmem : a ∈ keys := hcov a (List.mem_cons_self a l)
    have hcov2 : ∀ v ∈ l, v ∈ keys := fun v hv => hcov v (List.mem_cons_of_mem a hv)
    simp_rw [List.count_cons]
    rw [sum_map_add_split, ih hcov2, sum_indicator_eq_count,
      List.count_eq_one_of_mem hnd hmem, List.length_cons]

theorem sumSmells_bumpSmell (s : String) (c : Int) (inner : List (String × Int)) :
    sumSmells (bumpSmell s c inner) = sumSmells inner + c := by
  induction inner with
  | nil => simp [bumpSmell, sumSmells]
  | cons kv rest ih =>
    obtain ⟨k, v⟩ := kv
    by_cases h : k = s
    · simp only [bumpSmell, if_pos h, sumSmells, List.map_cons, List.sum_cons]
      simp only [sumSmells] at ih ⊢
      ring
    · simp only [bumpSmell, if_neg h, sumSmells, List.map_cons, List.sum_cons] at ih ⊢
      rw [ih]
      ring

theorem sumGrouped_bumpFile (f s : String) (c : Int)
    (g : List (String × List (String × Int))) :
    sumGrouped (bumpFile f s c g) = sumGrouped g + c := by
  induction g with
  | nil => simp [bumpFile, sumGrouped, bumpSmell, sumSmells]
  | cons kv rest ih =>
    obtain ⟨k, inner⟩ := kv
    by_cases h : k = f
    · simp only [bumpFile, if_pos h, sumGrouped, List.map_cons, List.sum_cons,
        sumSmells_bumpSmell]
      ring
    · simp only [bumpFile, if_neg h, sumGrouped, List.map_cons, List.sum_cons] at ih ⊢
      rw [ih]
      ring

theorem sumGrouped_foldl (data : List StackedDataItem) :
    ∀ acc, sumGrouped (data.foldl (fun acc item =>
        bumpFile item.filename item.smell_name item.count acc) acc)
      = sumGrouped acc + (data.map (fun it => it.count)).sum := by
  induction data with
  | nil => intro acc; simp
  | cons it rest ih =>
    intro acc
    simp only [List.foldl_cons, List.map_cons, List.sum_cons]
    rw [ih, sumGrouped_bumpFile]
    ring

theorem lookup_map_pair {α : Type} (g : Nat → α) (i : Nat) :
    ∀ σ : List Nat, i ∈ σ →
      (σ.map fun j => (j, g j)).lookup i = some (g i) := by
  intro σ
  induction σ with
  | nil => intro h; cases h
  | cons j rest ih =>
    intro h
    by_cases hij : i = j
    · subst hij
      simp [List.lookup]
    · have hmem : i ∈ rest := by
        rcases List.mem_cons.mp h with h1 | h1
        · exact absurd h1 hij
        · exact h1
      have hbeq : (i == j) = false := by simp [hij]
      simp [List.lookup, hbeq, ih hmem]

theorem map_range_getD {α β : Type} (f : α → β) (d : α) (l : List α) :
    (List.range l.length).map (fun i => f (l.getD i d)) = l.map f := by
  induction l with
  | nil => rfl
  | cons a t ih =>
    have hc : ((fun i => f ((a :: t).getD i d)) ∘ Nat.succ)
        = fun i => f (t.getD i d) := by
      funext i
      simp [List.getD_cons_succ]
    rw [List.length_cons, List.range_succ_eq_map, List.map_cons, List.map_map,
      hc, ih, List.getD_cons_zero, List.map_cons]

theorem scheduledResults_eq (detect : FileRec → Except String DetectResponse)
    (files : List FileRec) (order : List Nat)
    (hperm : order.Perm (List.range files.length)) :
    scheduledResults detect files order = analyzeResults detect files := by
  unfold scheduledResults gatherResults taskCompletions analyzeResults
  have hm : ∀ i ∈ List.range files.length, i ∈ order :=
    fun i hi => hperm.mem_iff.mpr hi
  have hstep : (List.range files.length).map
      (fun i => (((order.map fun j =>
          (j, recoverResult (detect (files.getD j ⟨""⟩)))).lookup i).getD
        { success := none, smells := some [] }))
      = (List.range files.length).map
        (fun i => recoverResult (detect (files.getD i ⟨""⟩))) := by
    apply List.map_congr_left
    intro i hi
    rw [lookup_map_pair (fun j => recoverResult (detect (files.getD j ⟨""⟩)))
      i order (hm i hi)]
    rfl
  rw [hstep]
  exact map_range_getD (fun x => recoverResult (detect x)) ⟨""⟩ files

theorem flatMap_map_comp {α β γ : Type} (h : α → β) (g : β → List γ)
    (l : List α) :
    (l.map h).flatMap g = l.flatMap (fun a => g (h a)) := by
  induction l with
  | nil => rfl
  | cons a t ih => simp [ih]

/-- C1: the aggregated total equals the sum of the per-file grouping counts,
equals the sum of the per-smell-type grouping counts, and equals the length
of the detection sequence; and the stacked-chart reduce that groups items by
(filename, smell_name) preserves the total — in particular, grouping the
detection list itself with unit counts sums back to the number of
detections. -/
theorem claim_C1_total_equals_groupings
    (files : List String) (dets : List ContextSmell)
    (items : List StackedDataItem)
    (hcov : ∀ d ∈ dets, d.file_name ∈ files) :
    (aggregate files dets).total_smells
        = sumCounts (aggregate files dets).smells_by_file ∧
    (aggregate files dets).total_smells
        = sumCounts (aggregate files dets).smells_by_type ∧
    (aggregate files dets).total_smells
        = (aggregate files dets).detections.length ∧
    sumGrouped (groupStacked items) = (items.map (fun it => it.count)).sum ∧
    sumGrouped (groupStacked (dets.map
        (fun d => ⟨d.file_name, d.smell_name, 1⟩)))
      = (dets.length : Int) := by
  refine ⟨?_, ?_, rfl, ?_, ?_⟩
  · show dets.length
        = sumCounts (countsFor files.dedup (dets.map (fun d => d.file_name)))
    rw [sumCounts_countsFor,
      sum_counts_cover _ _ (List.nodup_dedup files) ?_, List.length_map]
    intro v hv
    rcases List.mem_map.mp hv with ⟨d, hd, rfl⟩
    exact List.mem_dedup.mpr (hcov d hd)
  · show dets.length
        = sumCounts (countsFor (dets.map (fun d => d.smell_name)).dedup
            (dets.map (fun d => d.smell_name)))
    rw [sumCounts_countsFor, List.sum_map_count_dedup_eq_length,
      List.length_map]
  · unfold groupStacked
    rw [sumGrouped_foldl items []]
    simp [sumGrouped]
  · unfold groupStacked
    rw [sumGrouped_foldl _ []]
    simp [sumGrouped, List.map_map, Function.comp_def]

/-- Witness for C1 at one detection over one considered file. -/
theorem claim_C1_total_equals_groupings_witness :
    (∀ d ∈ [sampleSmell], d.file_name ∈ ["a.py"]) ∧
    ((aggregate ["a.py"] [sampleSmell]).total_smells
        = sumCounts (aggregate ["a.py"] [sampleSmell]).smells_by_file ∧
      (aggregate ["a.py"] [sampleSmell]).total_smells
        = sumCounts (aggregate ["a.py"] [sampleSmell]).smells_by_type ∧
      (aggregate ["a.py"] [sampleSmell]).total_smells
        = (aggregate ["a.py"] [sampleSmell]).detections.length ∧
      sumGrouped (groupStacked []) = (([] : List StackedDataItem).map
        (fun it => it.count)).sum ∧
      sumGrouped (groupStacked ([sampleSmell].map
          (fun d => ⟨d.file_name, d.smell_name, 1⟩)))
        = (([sampleSmell] : List ContextSmell).length : Int)) :=
  ⟨by decide, claim_C1_total_equals_groupings ["a.py"] [sampleSmell] []
    (by decide)⟩

/-- C3: the merged smell list under any completion order that is a
permutation of the task indices equals the concatenation of the per-file
smell lists in the original input order; hence any two completion orders
produce identical output, equal to the sequential merge. -/
theorem claim_C3_order_determinism
    (detect : FileRec → Except String DetectResponse) (files : List FileRec)
    (order₁ order₂ : List Nat)
    (h1 : order₁.Perm (List.range files.length))
    (h2 : order₂.Perm (List.range files.length)) :
    scheduledMergedSmells detect files order₁ =
      files.flatMap (fun f => (recoverResult (detect f)).smells.getD []) ∧
    scheduledMergedSmells detect files order₁ =
      scheduledMergedSmells detect files order₂ ∧
    scheduledMergedSmells detect files order₁ = mergedSmells detect files := by
  have e1 : scheduledMergedSmells detect files order₁
      = mergedSmells detect files := by
    unfold scheduledMergedSmells mergedSmells
    rw [scheduledResults_eq detect files order₁ h1]
  have e2 : scheduledMergedSmells detect files order₂
      = mergedSmells detect files := by
    unfold scheduledMergedSmells mergedSmells
    rw [scheduledResults_eq detect files order₂ h2]
  refine ⟨?_, e1.trans e2.symm, e1⟩
  rw [e1]
  unfold mergedSmells analyzeResults
  exact flatMap_map_comp (fun f => recoverResult (detect f))
    (fun r => r.smells.getD []) files

/-- Witness for C3: two completion orders of a concrete two-file project
produce the same merged output as the sequential input-order merge. -/
theorem claim_C3_order_determinism_witness :
    ([1, 0] : List Nat).Perm (List.range demoFiles.length) ∧
    ([0, 1] : List Nat).Perm (List.range demoFiles.length) ∧
    (scheduledMergedSmells demoDetect demoFiles [1, 0] =
        demoFiles.flatMap
          (fun f => (recoverResult (demoDetect f)).smells.getD []) ∧
      scheduledMergedSmells demoDetect demoFiles [1, 0] =
        scheduledMergedSmells demoDetect demoFiles [0, 1] ∧
      scheduledMergedSmells demoDetect demoFiles [1, 0] =
        mergedSmells demoDetect demoFiles) :=
  ⟨by decide, by decide,
    claim_C3_order_determinism demoDetect demoFiles [1, 0] [0, 1]
      (by decide) (by decide)⟩

/-- C4: a per-file analysis fault is caught — the faulting file contributes
the empty-smells recovery object, the entries for all other positions depend
only on their own file's analysis (so they are unaffected by the fault), and
the result array always has one entry per input file (the merge is total; no
fault escapes). -/
theorem claim_C4_fault_isolated
    (detect detect₂ : FileRec → Except String DetectResponse)
    (files : List FileRec) (i : Nat) (f : FileRec) (e : String)
    (hf : files[i]? = some f) (herr : detect f = .error e)
    (hagree : ∀ j : Nat, j ≠ i → ∀ g : FileRec, files[j]? = some g →
        detect₂ g = detect g) :
    (analyzeResults detect files)[i]? =
      some { success := none, smells := some [] } ∧
    (∀ j : Nat, j ≠ i →
      (analyzeResults detect₂ files)[j]? = (analyzeResults detect files)[j]?) ∧
    (analyzeResults detect files).length = files.length := by
  refine ⟨?_, ?_, by simp [analyzeResults]⟩
  · simp [analyzeResults, List.getElem?_map, hf, recoverResult, herr]
  · intro j hj
    simp only [analyzeResults, List.getElem?_map]
    cases hg : files[j]? with
    | none => rfl
    | some g => simp [hagree j hj g hg]

/-- Witness for C4: a back end that faults on the first file still yields a
full result array with an empty smell list at position 0. -/
theorem claim_C4_fault_isolated_witness :
    (demoFiles[0]? = some ⟨"a.py"⟩) ∧
    ((analyzeResults errDetect demoFiles)[0]? =
        some { success := none, smells := some [] } ∧
      (∀ j : Nat, j ≠ 0 →
        (analyzeResults errDetect demoFiles)[j]? =
          (analyzeResults errDetect demoFiles)[j]?) ∧
      (analyzeResults errDetect demoFiles).length = demoFiles.length) :=
  ⟨by decide,
    claim_C4_fault_isolated errDetect errDetect demoFiles 0 ⟨"a.py"⟩ "boom"
      (by decide) (by simp [errDetect]) (fun j hj g hg => rfl)⟩

/-- C7: on the empty file list the analysis completes and produces the
no-valid-files project data with an empty smell list, and the aggregate of
an empty detection list over no files is the all-empty result (zero total,
empty groupings, no detections). -/
theorem claim_C7_empty_input
    (detect : FileRec → Except String DetectResponse) :
    analyzeProject detect [] =
      { files := none, message := "No valid files found for analysis.",
        result := none, smells := some [] } ∧
    mergedSmells detect [] = [] ∧
    aggregate [] [] =
      { total_smells := 0, smells_by_file := [], smells_by_type := [],
        detections := [] } :=
  ⟨rfl, rfl, rfl⟩
